import Mathlib

/-!
Shallow embedding of the `teletraan/httpx` Go library (package `httpx` and its
`auth` subpackage) and verification of its specification.

Modelling conventions:
* Go `(T, error)` return values become `ErrOr T`; a Go runtime panic is a
  distinct outcome `GoResult.panic`.
* Go standard-library calls (base64url decoding, JSON unmarshalling, URL
  parsing/resolution, query encoding, `http.NewRequest`) are not code of this
  repository; they are passed in as oracle function parameters, so theorems
  quantify over their behaviour and witnesses instantiate them concretely.
* Go `map` values (header maps, the heap of header maps) are association
  lists; `http.Header.Set` keeps the first binding of a key and replaces its
  value list (the keys used by this code, "Authorization", "Accept", etc.,
  are already in canonical MIME form, so Go's key canonicalisation is the
  identity on them).
* Mutation of header maps through `*http.Request` pointers is modelled with
  an explicit heap: a request holds a `Nat` reference into a store of header
  maps, and allocation hands out `Heap.next`, so reference (in)equality is
  observable, which is what request-cloning claims are about.
* `time.Now().Unix()` becomes an explicit `now : Int` argument.
* JSON numbers are decoded by Go into `float64`; the `exp` claims concern
  whole-second Unix timestamps, for which the Go conversion `int64(x)` is
  exact, so JSON numbers are modelled as `Int`.
-/

namespace Httpx

/-- Result of a Go function returning `(T, error)`. -/
inductive ErrOr (α : Type) where
  | ok (a : α)
  | err (msg : String)
  deriving DecidableEq, Repr

/-- Result of a Go computation that can also panic at runtime
(an unchecked type assertion, for instance). -/
inductive GoResult (α : Type) where
  | ok (a : α)
  | err (msg : String)
  | panic
  deriving DecidableEq, Repr

/-- A Go `http.Header`: a map from header name to list of values,
modelled as an association list with at most one binding per key in use. -/
abbrev HeaderMap := List (String × List String)

/-- Go `http.Header.Set k v`: replace the binding of `k` by the
single-element list `[v]`, inserting it if absent. -/
def headerSet (h : HeaderMap) (k v : String) : HeaderMap :=
  match h with
  | [] => [(k, [v])]
  | (k₁, vs) :: rest => if k₁ = k then (k, [v]) :: rest else (k₁, vs) :: headerSet rest k v

/-- Go `http.Header.Get`-style lookup of the (first) binding of a key. -/
def headerGet (h : HeaderMap) (k : String) : Option (List String) :=
  match h with
  | [] => none
  | (k₁, vs) :: rest => if k₁ = k then some vs else headerGet rest k

/-- A decoded JSON value as Go's `encoding/json` produces it into
`map[string]interface\x7b\x7d` entries: numbers (`float64`, here the exact
`int64` image of whole timestamps), strings, or any other JSON value. -/
inductive JValue where
  | jnum (n : Int)
  | jstr (s : String)
  | jother
  deriving DecidableEq, Repr

/-- Lookup in a decoded JSON object (Go map access `m[k]`). -/
def jlookup (m : List (String × JValue)) (k : String) : Option JValue :=
  match m with
  | [] => none
  | (k₁, v) :: rest => if k₁ = k then some v else jlookup rest k

/-- Go `strings.Split s "."` on the character list of `s`:
splits at every dot; `Split "" "."` is `[""]`. -/
def splitDots (cs : List Char) : List (List Char) :=
  match cs with
  | [] => [[]]
  | c :: rest =>
    let r := splitDots rest
    if c = '.' then [] :: r
    else
      match r with
      | [] => [[c]]
      | x :: xs => (c :: x) :: xs

/-- Go `strings.Split token "."`. -/
def tokenParts (s : String) : List String :=
  (splitDots s.data).map String.mk

/-- JWTToken (auth package): raw token string and the expiry instant
recovered at construction (`0` when none was recovered). -/
structure JWTToken where
  token : String
  expiredAt : Int
  deriving DecidableEq, Repr

/-- Base64url padding restoration from `SetExpireTime`:
`if l := len(payload) % 4; l > 0 \x7b payload += strings.Repeat("=", 4-l) \x7d`.
Payload segments of compact tokens are ASCII, where Go's byte length and
`String.length` agree. -/
def padPayload (p : String) : String :=
  let l := p.length % 4
  if l > 0 then p ++ String.mk (List.replicate (4 - l) '=') else p

/-- `JWTToken.SetExpireTime`, parameterised by the standard-library oracles
`b64` (`base64.URLEncoding.DecodeString`, `none` on error) and `unmarshal`
(`json.Unmarshal` into `map[string]interface\x7b\x7d`, `none` on error).
The unchecked Go type assertion `ts.(float64)` on a non-number becomes
`GoResult.panic`. Error messages keep the code's static prefixes. -/
def setExpireTime (b64 : String → Option (List Nat))
    (unmarshal : List Nat → Option (List (String × JValue)))
    (t : JWTToken) : GoResult JWTToken :=
  match tokenParts t.token with
  | [_, payload, _] =>
    match b64 (padPayload payload) with
    | none => .err "decode jwt token error"
    | some b =>
      match unmarshal b with
      | none => .err "unmarshal decode jwt token error"
      | some m =>
        match jlookup m "exp" with
        | none => .ok t
        | some (.jnum n) => .ok { t with expiredAt := n }
        | some _ => .panic
  | _ => .err "need jwt token"

/-- `NewJWTToken`: build the token and run `SetExpireTime`, wrapping its
error. A panic propagates. -/
def NewJWTToken (b64 : String → Option (List Nat))
    (unmarshal : List Nat → Option (List (String × JValue)))
    (token : String) : GoResult JWTToken :=
  match setExpireTime b64 unmarshal { token := token, expiredAt := 0 } with
  | .ok t => .ok t
  | .err e => .err ("new jwt token error: " ++ e)
  | .panic => .panic

/-- `JWTToken.almostExpired` at current Unix time `now`:
`expiredAt == 0` means expired; otherwise `(now + 10) > expiredAt`. -/
def almostExpired (now : Int) (t : JWTToken) : Bool :=
  if t.expiredAt = 0 then true else decide (now + 10 > t.expiredAt)

/-- `JWTToken.Valid` at current Unix time `now` (a Lean value is never the
Go `nil` pointer, so the `t != nil` conjunct always holds here). -/
def Valid (now : Int) (t : JWTToken) : Bool :=
  decide (t.token ≠ "") && ! almostExpired now t

/-! Section: the authenticating transport (auth package)

Go requests are passed by pointer and their `Header` map is mutable shared
state, so requests are modelled as structs holding a reference into an
explicit heap of header maps. -/

/-- A `*http.Request` as the transport sees it: scalar fields plus a
reference to its header map in the heap. -/
structure GoRequest where
  method : String
  urlStr : String
  headerRef : Nat
  deriving DecidableEq, Repr

/-- Store of allocated header maps; `next` is the next fresh reference, so
every allocated reference is `< next`. -/
structure Heap where
  store : List (Nat × HeaderMap)
  next : Nat
  deriving DecidableEq, Repr

/-- First binding of a reference in the store. -/
def assocGet (l : List (Nat × HeaderMap)) (r : Nat) : Option HeaderMap :=
  match l with
  | [] => none
  | (r₁, m) :: rest => if r₁ = r then some m else assocGet rest r

/-- Replace the first binding of a reference, inserting it if absent. -/
def assocSet (l : List (Nat × HeaderMap)) (r : Nat) (m : HeaderMap) : List (Nat × HeaderMap) :=
  match l with
  | [] => [(r, m)]
  | (r₁, m₁) :: rest => if r₁ = r then (r, m) :: rest else (r₁, m₁) :: assocSet rest r m

/-- Dereference a header-map pointer (a dangling reference reads as the
empty map; well-formed uses never exercise that case). -/
def Heap.get (h : Heap) (r : Nat) : HeaderMap :=
  (assocGet h.store r).getD []

/-- Write through a header-map pointer. -/
def Heap.set (h : Heap) (r : Nat) (m : HeaderMap) : Heap :=
  { h with store := assocSet h.store r m }

/-- Allocate a fresh header map, returning the new heap and the reference. -/
def Heap.alloc (h : Heap) (m : HeaderMap) : Heap × Nat :=
  ({ store := (h.next, m) :: h.store, next := h.next + 1 }, h.next)

/-- `cloneRequest`: shallow copy of the request struct, deep copy of the
Header map (`r2.Header = make(...)` then `append([]string(nil), s...)` per
key: a fresh map whose contents equal the original's, each value list
copied — with value semantics the copied lists are the same list values).
Returns the updated heap and the clone. -/
def cloneRequest (h : Heap) (r : GoRequest) : Heap × GoRequest :=
  let contents := (h.get r.headerRef).map (fun kv => (kv.1, kv.2))
  let alloc := h.alloc contents
  (alloc.1, { r with headerRef := alloc.2 })

/-- `JWTToken.SetAuthorization`:
`req.Header.Set("Authorization", "Token " + t.token)`, writing through the
request's header reference. -/
def setAuthorization (t : JWTToken) (h : Heap) (r : GoRequest) : Heap :=
  h.set r.headerRef (headerSet (h.get r.headerRef) "Authorization" ("Token " ++ t.token))

/-- Outcome of `TokenAuthTransport.RoundTrip` up to the delegation point:
either one of its error returns, or delegation to the underlying transport
with the heap as mutated and the stamped request copy. -/
inductive RTRes where
  | noSource
  | sourceErr (msg : String)
  | delegated (h : Heap) (req2 : GoRequest)
  deriving DecidableEq, Repr

/-- `TokenAuthTransport.RoundTrip`: clone the request, check the source,
fetch a token (`source` is the result of `t.Source.Token()`; `none` models a
nil `Source`), stamp the clone, delegate. The underlying transport is
outside this model; `delegated` records exactly what it is handed. -/
def RoundTrip (source : Option (ErrOr JWTToken)) (h : Heap) (r : GoRequest) : RTRes :=
  let cl := cloneRequest h r
  match source with
  | none => .noSource
  | some (.err e) => .sourceErr ("roundtrip error: " ++ e)
  | some (.ok t) => .delegated (setAuthorization t cl.1 cl.2) cl.2

/-! Section: The API client (package httpx) -/

/-- `httpx.Client` configuration (the executing `http.Client` is an
external collaborator and stays outside the model). -/
structure Client where
  baseURL : String
  userAgent : String
  deriving DecidableEq, Repr

/-- A built `*http.Request` as `NewRequest` returns it: method, resolved
URL, headers, and the encoded body if any (value-level here; the heap model
is only needed where aliasing matters). -/
structure BuiltRequest where
  method : String
  url : String
  header : HeaderMap
  body : Option String
  deriving DecidableEq, Repr

/-- Go `strings.HasPrefix s "/"`. -/
def hasLeadingSlash (s : String) : Bool :=
  match s.data with
  | '/' :: _ => true
  | _ => false

/-- `Client.NewRequest`, parameterised by the standard-library oracles
`resolve` (`c.BaseURL.Parse urlStr`), `mergeQuery` (the `u.Query()` /
`q.Set` / `q.Encode` block applied when `params != nil`), `encode`
(`json.NewEncoder(buf).Encode(body)`) and `mkReq` (`http.NewRequest`).
The preceding-slash check runs before any of them. -/
def NewRequest (resolve : String → ErrOr String)
    (mergeQuery : String → List (String × String) → String)
    (encode : String → ErrOr String)
    (mkReq : String → String → Option String → ErrOr BuiltRequest)
    (c : Client) (method urlStr : String)
    (params : Option (List (String × String))) (body : Option String) :
    ErrOr BuiltRequest :=
  if ¬ hasLeadingSlash urlStr then
    .err ("httpx new request error: url must have a preceding slash, but \"" ++
      urlStr ++ "\" does not")
  else
    match resolve urlStr with
    | .err e => .err ("httpx new request error: " ++ e)
    | .ok u =>
      let u := match params with
        | none => u
        | some ps => mergeQuery u ps
      let encodedBody : ErrOr (Option String) := match body with
        | none => .ok none
        | some b => match encode b with
          | .err e => .err e
          | .ok bs => .ok (some bs)
      match encodedBody with
      | .err e => .err ("httpx new request error: " ++ e)
      | .ok bodyBytes =>
        match mkReq method u bodyBytes with
        | .err e => .err ("httpx new request error: " ++ e)
        | .ok req =>
          let req := if bodyBytes.isSome then
              { req with header := headerSet req.header "Content-Type" "application/json" }
            else req
          let req := { req with header := headerSet req.header "Accept" "application/json" }
          let req := { req with header := headerSet req.header "User-Agent" c.userAgent }
          .ok req

/-- `Client.NewMultiPartRequest`: the nil-body check runs first, then the
preceding-slash check, then URL resolution (`resolve`) and `http.NewRequest`
(`mkReq`); the body stream passes through unmodified. -/
def NewMultiPartRequest (resolve : String → ErrOr String)
    (mkReq : String → String → Option String → ErrOr BuiltRequest)
    (c : Client) (method urlStr : String)
    (body : Option String) (contentType : String) : ErrOr BuiltRequest :=
  match body with
  | none => .err "httpx new multi part request error: expected not nil body"
  | some b =>
    if ¬ hasLeadingSlash urlStr then
      .err ("httpx new multi part request error: url must have a preceding slash, but \"" ++
        urlStr ++ "\" does not")
    else
      match resolve urlStr with
      | .err e => .err ("httpx new multi part request error: " ++ e)
      | .ok u =>
        match mkReq method u (some b) with
        | .err e => .err ("httpx new multi part request error: " ++ e)
        | .ok req =>
          let req := { req with header := headerSet req.header "Content-Type" contentType }
          let req := { req with header := headerSet req.header "Accept" "application/json" }
          let req := { req with header := headerSet req.header "User-Agent" c.userAgent }
          .ok req

/-! Section: Response classification and `Client.Do` -/

/-- The `*http.Response` handed back by the executing client, with the
fields of it that `Do` and the envelope consult: the status code, the
request's method and URL (`resp.Request`), and the body stream, whose full
read either yields bytes or fails. -/
structure HTTPResp where
  statusCode : Int
  reqMethod : String
  reqURL : String
  body : ErrOr String
  deriving DecidableEq, Repr

/-- `httpx.Response`: wraps the raw response plus `ErrMessage`. -/
structure Response where
  resp : HTTPResp
  errMessage : String
  deriving DecidableEq, Repr

/-- `Response.HasError`: status code in `[400, 599]`. -/
def hasError (r : Response) : Bool :=
  decide (400 ≤ r.resp.statusCode) && decide (r.resp.statusCode ≤ 599)

/-- `Response.Error`: the Go format string
`"%v %v: %d %v"` applied to method, URL, status code, `ErrMessage`. -/
def errorString (r : Response) : String :=
  r.resp.reqMethod ++ " " ++ r.resp.reqURL ++ ": " ++
    toString r.resp.statusCode ++ " " ++ r.errMessage

/-- The `v interface\x7b\x7d` argument of `Do`: Go `nil`, an `io.Writer`,
or a JSON-decode target. -/
inductive Target where
  | nilTarget
  | writer
  | jsonTarget
  deriving DecidableEq, Repr

/-- Outcome of `json.NewDecoder(resp.Body).Decode(v)` on a successfully
read body: decoded into the target, clean `io.EOF` with zero bytes decoded
(empty body), or any other failure. -/
inductive DecodeRes where
  | ok
  | eofEmpty
  | fail (msg : String)
  deriving DecidableEq, Repr

/-- Return value of `Client.Do`, one constructor per `return` in the code,
recording the `(*Response, error)` pair's shape: `errNilV`, `errCtx`,
`errTransport` and `errRead` are `(nil, err)`; `errEnvelope` is
`(nil, response)` — the envelope itself is the error; `okWriter` and
`okJSON` are `(response, nil)` (in `okJSON`, `decoded` is false when the
decoder hit clean `io.EOF` and the target was left untouched); `errDecode`
is `(response, err)`. -/
inductive DoRes where
  | errNilV
  | errCtx (msg : String)
  | errTransport (msg : String)
  | errRead (msg : String)
  | errEnvelope (env : Response)
  | okWriter (env : Response)
  | okJSON (env : Response) (decoded : Bool)
  | errDecode (env : Response) (msg : String)
  deriving DecidableEq, Repr

/-- `Client.Do`, parameterised by: `dec`, the `encoding/json` decoder
oracle applied to the read body; `ctxDone`, whether `ctx.Done()` is already
closed when the transport fails, and `ctxErrMsg`, the message of
`ctx.Err()`; `transport`, the result of `c.httpClient.Do(req)`; `v`, the
target. On the writer path the `io.Copy` error is discarded exactly as in
the code. -/
def Do (dec : String → DecodeRes) (ctxDone : Bool) (ctxErrMsg : String)
    (transport : ErrOr HTTPResp) (v : Target) : DoRes :=
  match v with
  | .nilTarget => .errNilV
  | _ =>
    match transport with
    | .err e =>
      if ctxDone then .errCtx ("httpx do error: " ++ ctxErrMsg)
      else .errTransport ("httpx do error: " ++ e)
    | .ok resp =>
      let response : Response := { resp := resp, errMessage := "" }
      if hasError response then
        match resp.body with
        | .err e => .errRead ("httpx do error: " ++ e)
        | .ok b => .errEnvelope { resp := resp, errMessage := b }
      else
        match v with
        | .writer => .okWriter response
        | _ =>
          match resp.body with
          | .err e => .errDecode response e
          | .ok b =>
            match dec b with
            | .ok => .okJSON response true
            | .eofEmpty => .okJSON response false
            | .fail m => .errDecode response m

/-! Section: Helper lemmas on header maps and the heap -/

lemma headerGet_headerSet (h : HeaderMap) (k v : String) :
    headerGet (headerSet h k v) k = some [v] := by
  induction h with
  | nil => simp [headerSet, headerGet]
  | cons kv rest ih =>
    by_cases hk : kv.1 = k <;> simp [headerSet, headerGet, hk, ih]

lemma headerSet_idem (h : HeaderMap) (k v : String) :
    headerSet (headerSet h k v) k v = headerSet h k v := by
  induction h with
  | nil => simp [headerSet]
  | cons kv rest ih =>
    by_cases hk : kv.1 = k <;> simp [headerSet, hk, ih]

lemma assocGet_assocSet_eq (l : List (Nat × HeaderMap)) (r : Nat) (m : HeaderMap) :
    assocGet (assocSet l r m) r = some m := by
  induction l with
  | nil => simp [assocSet, assocGet]
  | cons rm rest ih =>
    by_cases hr : rm.1 = r <;> simp [assocSet, assocGet, hr, ih]

lemma assocGet_assocSet_ne (l : List (Nat × HeaderMap)) (r r₂ : Nat) (m : HeaderMap)
    (h : r₂ ≠ r) : assocGet (assocSet l r m) r₂ = assocGet l r₂ := by
  have h₂ : ¬ (r = r₂) := fun e => h e.symm
  induction l with
  | nil => simp [assocSet, assocGet, h₂]
  | cons rm rest ih =>
    by_cases hr : rm.1 = r
    · simp [assocSet, assocGet, hr, h, h₂]
    · by_cases hr₂ : rm.1 = r₂ <;> simp [assocSet, assocGet, hr, hr₂, h, h₂, ih]

lemma assocSet_assocSet (l : List (Nat × HeaderMap)) (r : Nat) (a b : HeaderMap) :
    assocSet (assocSet l r a) r b = assocSet l r b := by
  induction l with
  | nil => simp [assocSet]
  | cons rm rest ih =>
    by_cases hr : rm.1 = r <;> simp [assocSet, hr, ih]

lemma Heap.get_set_eq (h : Heap) (r : Nat) (m : HeaderMap) :
    (h.set r m).get r = m := by
  simp [Heap.get, Heap.set, assocGet_assocSet_eq]

lemma map_pair_id (l : HeaderMap) : l.map (fun kv => (kv.1, kv.2)) = l := by
  induction l with
  | nil => rfl
  | cons kv rest ih => simp [ih]

/-! Section: Concrete oracle instances used by witnesses and counterexamples -/

/-- Stand-in base64url decoder accepting every payload. -/
def b64stub : String → Option (List Nat) := fun _ => some [0]

/-- Unmarshal oracle producing an object with numeric exp = 20. -/
def umExp20 : List Nat → Option (List (String × JValue)) :=
  fun _ => some [("exp", JValue.jnum 20)]

/-- Unmarshal oracle producing an object with numeric exp = 0. -/
def umExp0 : List Nat → Option (List (String × JValue)) :=
  fun _ => some [("exp", JValue.jnum 0)]

/-- Unmarshal oracle producing an object with no exp field. -/
def umNoExp : List Nat → Option (List (String × JValue)) := fun _ => some []

/-- UTF-8 bytes of the JSON text with a string-valued exp claim
(the base64url decoding of "eyJleHAiOiJ4In0="). -/
def expStrBytes : List Nat := [123, 34, 101, 120, 112, 34, 58, 34, 120, 34, 125]

/-- Base64url oracle agreeing with `base64.URLEncoding.DecodeString` on the
padded payload segment of the failing input of C9. -/
def b64OnExpStr : String → Option (List Nat) :=
  fun p => if p = "eyJleHAiOiJ4In0=" then some expStrBytes else none

/-- Unmarshal oracle agreeing with `json.Unmarshal` on those bytes:
the object whose exp field is the JSON string "x". -/
def umOnExpStr : List Nat → Option (List (String × JValue)) :=
  fun b => if b = expStrBytes then some [("exp", JValue.jstr "x")] else none

/-! Section: Reduction lemma for token construction -/

lemma newJWTToken_of_exp (b64 : String → Option (List Nat))
    (um : List Nat → Option (List (String × JValue)))
    (s hdr payload sig : String) (bs : List Nat) (m : List (String × JValue)) (T : Int)
    (hsplit : tokenParts s = [hdr, payload, sig])
    (hb : b64 (padPayload payload) = some bs)
    (hm : um bs = some m)
    (hexp : jlookup m "exp" = some (.jnum T)) :
    NewJWTToken b64 um s = .ok ⟨s, T⟩ := by
  simp [NewJWTToken, setExpireTime, hsplit, hb, hm, hexp]

/-! Section: Claim theorems -/

/-- C1 (amended): for a JWTToken constructed from a compact token whose
payload decodes to a JSON object with numeric field exp = T where T ≠ 0,
and whose raw token string is non-empty, `Valid` returns true at every
current time at or before T - 10 seconds and false strictly after T - 10
(the code treats exp = 0 as no recovered expiry, and its strict comparison
`now + 10 > exp` leaves the token valid at exactly T - 10). -/
theorem jwt_valid_window (b64 : String → Option (List Nat))
    (um : List Nat → Option (List (String × JValue)))
    (s hdr payload sig : String) (bs : List Nat) (m : List (String × JValue))
    (T now : Int)
    (hsplit : tokenParts s = [hdr, payload, sig])
    (hb : b64 (padPayload payload) = some bs)
    (hm : um bs = some m)
    (hexp : jlookup m "exp" = some (.jnum T))
    (hT : T ≠ 0) (hs : s ≠ "") :
    NewJWTToken b64 um s = .ok ⟨s, T⟩ ∧
    (Valid now ⟨s, T⟩ = true ↔ now ≤ T - 10) := by
  refine ⟨newJWTToken_of_exp b64 um s hdr payload sig bs m T hsplit hb hm hexp, ?_⟩
  simp only [Valid, almostExpired, hT, if_false, Bool.and_eq_true, decide_eq_true_eq,
    Bool.not_eq_true', decide_eq_false_iff_not, not_lt]
  constructor
  · rintro ⟨-, h⟩
    omega
  · intro h
    exact ⟨hs, by omega⟩

/-- Witness for C1 (amended) at exp = 20 and now = 5. -/
theorem jwt_valid_window_witness :
    NewJWTToken b64stub umExp20 "a.b.c" = .ok ⟨"a.b.c", 20⟩ ∧
    (Valid 5 ⟨"a.b.c", 20⟩ = true ↔ (5 : Int) ≤ 20 - 10) :=
  jwt_valid_window b64stub umExp20 "a.b.c" "a" "b" "c" [0]
    [("exp", JValue.jnum 20)] 20 5 (by decide) rfl rfl (by decide) (by decide) (by decide)

/-- Counterexample to C1 as stated: with exp = 20, at current time
10 = T - 10 the token is still reported valid, though the claim requires
`Valid` to be false at or after T - 10; and with exp = 0, at current time
-100 < T - 10 the token is reported invalid, though the claim requires
`Valid` to be true strictly before T - 10. -/
theorem jwt_valid_boundary_cex :
    NewJWTToken b64stub umExp20 "a.b.c" = .ok ⟨"a.b.c", 20⟩ ∧
    Valid 10 ⟨"a.b.c", 20⟩ = true ∧
    NewJWTToken b64stub umExp0 "a.b.c" = .ok ⟨"a.b.c", 0⟩ ∧
    Valid (-100) ⟨"a.b.c", 0⟩ = false := by
  refine ⟨newJWTToken_of_exp b64stub umExp20 "a.b.c" "a" "b" "c" [0]
      [("exp", JValue.jnum 20)] 20 (by decide) rfl rfl (by decide), ?_,
    newJWTToken_of_exp b64stub umExp0 "a.b.c" "a" "b" "c" [0]
      [("exp", JValue.jnum 0)] 0 (by decide) rfl rfl (by decide), ?_⟩ <;> decide

/-- C4: a JWTToken built from a three-segment token whose decoded payload
object has no exp field keeps `expiredAt = 0` and is never reported valid
at any current time; and a token string whose dot-split does not have
exactly three segments makes construction fail with an error, producing no
token value. -/
theorem jwt_no_exp_or_malformed (b64 : String → Option (List Nat))
    (um : List Nat → Option (List (String × JValue))) :
    (∀ (s hdr payload sig : String) (bs : List Nat) (m : List (String × JValue)),
      tokenParts s = [hdr, payload, sig] →
      b64 (padPayload payload) = some bs → um bs = some m →
      jlookup m "exp" = none →
      NewJWTToken b64 um s = .ok ⟨s, 0⟩ ∧ ∀ now : Int, Valid now ⟨s, 0⟩ = false) ∧
    (∀ s : String, (tokenParts s).length ≠ 3 →
      NewJWTToken b64 um s = .err "new jwt token error: need jwt token") := by
  constructor
  · intro s hdr payload sig bs m hsplit hb hm hexp
    constructor
    · simp [NewJWTToken, setExpireTime, hsplit, hb, hm, hexp]
    · intro now
      simp [Valid, almostExpired]
  · intro s hlen
    rcases hl : tokenParts s with _ | ⟨a, _ | ⟨b, _ | ⟨c, _ | ⟨d, rest⟩⟩⟩⟩
    · simp [NewJWTToken, setExpireTime, hl]
    · simp [NewJWTToken, setExpireTime, hl]
    · simp [NewJWTToken, setExpireTime, hl]
    · exact absurd (by simp [hl]) hlen
    · simp [NewJWTToken, setExpireTime, hl]

/-- Witness for C4: a payload without exp yields a never-valid token, and a
two-segment token string fails construction. -/
theorem jwt_no_exp_or_malformed_witness :
    (NewJWTToken b64stub umNoExp "a.b.c" = .ok ⟨"a.b.c", 0⟩ ∧
      Valid 0 ⟨"a.b.c", 0⟩ = false) ∧
    NewJWTToken b64stub umNoExp "a.b" = .err "new jwt token error: need jwt token" :=
  ⟨⟨((jwt_no_exp_or_malformed b64stub umNoExp).1 "a.b.c" "a" "b" "c" [0] []
      (by decide) rfl rfl rfl).1,
    ((jwt_no_exp_or_malformed b64stub umNoExp).1 "a.b.c" "a" "b" "c" [0] []
      (by decide) rfl rfl rfl).2 0⟩,
   (jwt_no_exp_or_malformed b64stub umNoExp).2 "a.b" (by decide)⟩

/-- C9 at its failing input: on the compact token "h.eyJleHAiOiJ4In0.s",
whose payload decodes to a JSON object in which exp is the string "x",
`NewJWTToken` hits the unchecked type assertion `ts.(float64)` in
`SetExpireTime` and panics instead of returning a token or an error. -/
theorem newJWTToken_panics_on_nonnumeric_exp :
    NewJWTToken b64OnExpStr umOnExpStr "h.eyJleHAiOiJ4In0.s" = .panic := by
  decide

/-- C8: `JWTToken.SetAuthorization` is idempotent — stamping the same
request twice leaves it with the same state, holding the single
Authorization header value `"Token " ++ t.token` — and that value is a
function of the token's raw string alone, independent of every other field
of the request or of its prior headers. -/
theorem setAuthorization_idempotent (t : JWTToken) (h : Heap) (r : GoRequest) :
    setAuthorization t (setAuthorization t h r) r = setAuthorization t h r ∧
    headerGet ((setAuthorization t h r).get r.headerRef) "Authorization" =
      some ["Token " ++ t.token] := by
  constructor
  · simp only [setAuthorization, Heap.get_set_eq, headerSet_idem]
    simp [Heap.set, assocSet_assocSet]
  · simp only [setAuthorization, Heap.get_set_eq]
    exact headerGet_headerSet _ _ _

/-- C3: `TokenAuthTransport.RoundTrip` never mutates the caller's request:
it delegates with a clone whose scalar fields are shallow-copied and whose
header map lives at a fresh reference holding a copy of the original's
contents; stamping is visible only at that fresh reference, every
previously allocated header map (the caller's included) is unchanged, and
the heap's allocation frontier advances, so later dispatches from the same
base request use yet-fresher references and cannot interfere. -/
theorem roundtrip_copy_isolation (h : Heap) (r : GoRequest) (t : JWTToken)
    (hwf : r.headerRef < h.next) :
    RoundTrip (some (.ok t)) h r =
      .delegated (setAuthorization t (cloneRequest h r).1 (cloneRequest h r).2)
        (cloneRequest h r).2 ∧
    ((cloneRequest h r).2.method = r.method ∧ (cloneRequest h r).2.urlStr = r.urlStr) ∧
    ((cloneRequest h r).2.headerRef = h.next ∧ r.headerRef ≠ h.next) ∧
    (setAuthorization t (cloneRequest h r).1 (cloneRequest h r).2).get h.next =
      headerSet (h.get r.headerRef) "Authorization" ("Token " ++ t.token) ∧
    (∀ a, a < h.next →
      (setAuthorization t (cloneRequest h r).1 (cloneRequest h r).2).get a = h.get a) ∧
    (setAuthorization t (cloneRequest h r).1 (cloneRequest h r).2).next = h.next + 1 := by
  refine ⟨rfl, ⟨rfl, rfl⟩, ⟨rfl, Nat.ne_of_lt hwf⟩, ?_, ?_, rfl⟩
  · simp [setAuthorization, cloneRequest, Heap.alloc, Heap.set, Heap.get,
      assocSet, assocGet, map_pair_id]
  · intro a ha
    simp [setAuthorization, cloneRequest, Heap.alloc, Heap.set, Heap.get,
      assocSet, assocGet, map_pair_id, Ne.symm (Nat.ne_of_lt ha)]

/-- Decoder stub used by witnesses: clean EOF on every body. -/
def decStub : String → DecodeRes := fun _ => DecodeRes.eofEmpty

/-- C2: for every executed request whose response carries a status code in
400-599 and whose body reads fully as `b`, `Do` stores `b` in the
envelope's ErrMessage and returns `(nil, envelope)` — no response object
for the caller, the envelope itself as the error value — and the
envelope's error message is the request method, the request URL, the
status code and the body text. -/
theorem do_application_error (dec : String → DecodeRes) (ctxDone : Bool)
    (ctxErrMsg : String) (resp : HTTPResp) (b : String) (v : Target)
    (hv : v ≠ .nilTarget)
    (hlo : 400 ≤ resp.statusCode) (hhi : resp.statusCode ≤ 599)
    (hbody : resp.body = .ok b) :
    Do dec ctxDone ctxErrMsg (.ok resp) v = .errEnvelope ⟨resp, b⟩ ∧
    errorString ⟨resp, b⟩ =
      resp.reqMethod ++ " " ++ resp.reqURL ++ ": " ++
        toString resp.statusCode ++ " " ++ b := by
  refine ⟨?_, rfl⟩
  cases v with
  | nilTarget => exact absurd rfl hv
  | writer => simp [Do, hasError, hlo, hhi, hbody]
  | jsonTarget => simp [Do, hasError, hlo, hhi, hbody]

/-- Witness for C2: a 404 with body "not found". -/
theorem do_application_error_witness :
    Do decStub false "" (.ok ⟨404, "GET", "http://x/y", .ok "not found"⟩) .jsonTarget =
      .errEnvelope ⟨⟨404, "GET", "http://x/y", .ok "not found"⟩, "not found"⟩ ∧
    errorString ⟨⟨404, "GET", "http://x/y", .ok "not found"⟩, "not found"⟩ =
      "GET" ++ " " ++ "http://x/y" ++ ": " ++ toString (404 : Int) ++ " " ++ "not found" :=
  do_application_error decStub false "" ⟨404, "GET", "http://x/y", .ok "not found"⟩
    "not found" .jsonTarget (by decide) (by decide) (by decide) rfl

/-- C5: on a pure transport failure (the executing client returned an
error, no response), `Do` returns the wrapped context error when the
supplied context was already done, and the wrapped transport error
otherwise; both outcomes carry no response envelope. -/
theorem do_transport_error (dec : String → DecodeRes) (ctxDone : Bool)
    (ctxErrMsg e : String) (v : Target) (hv : v ≠ .nilTarget) :
    Do dec ctxDone ctxErrMsg (.err e) v =
      (if ctxDone then DoRes.errCtx ("httpx do error: " ++ ctxErrMsg)
       else DoRes.errTransport ("httpx do error: " ++ e)) := by
  cases v with
  | nilTarget => exact absurd rfl hv
  | writer => rfl
  | jsonTarget => rfl

/-- Witness for C5: a refused connection under an already-canceled context. -/
theorem do_transport_error_witness :
    Do decStub true "context canceled" (.err "conn refused") .jsonTarget =
      (if true then DoRes.errCtx ("httpx do error: " ++ "context canceled")
       else DoRes.errTransport ("httpx do error: " ++ "conn refused")) :=
  do_transport_error decStub true "context canceled" "conn refused" .jsonTarget (by decide)

/-- C7: a success response (status outside 400-599) with an empty body and
a JSON-decode target yields no error from `Do`, with the target left
untouched (`decoded = false` records that the decoder stopped at clean
`io.EOF` without writing). The decoder hypothesis pins the
`encoding/json` oracle to its actual behaviour on empty input. -/
theorem do_empty_body_no_error (dec : String → DecodeRes) (ctxDone : Bool)
    (ctxErrMsg : String) (resp : HTTPResp)
    (hstatus : ¬ (400 ≤ resp.statusCode ∧ resp.statusCode ≤ 599))
    (hbody : resp.body = .ok "")
    (hdec : dec "" = .eofEmpty) :
    Do dec ctxDone ctxErrMsg (.ok resp) .jsonTarget = .okJSON ⟨resp, ""⟩ false := by
  have hE : hasError ⟨resp, ""⟩ = false := by
    rw [Bool.eq_false_iff]
    intro hcontra
    simp only [hasError, Bool.and_eq_true, decide_eq_true_eq] at hcontra
    exact hstatus hcontra
  simp [Do, hE, hbody, hdec]

/-- Witness for C7: a 204 with an empty body. -/
theorem do_empty_body_no_error_witness :
    Do decStub false "" (.ok ⟨204, "GET", "http://x/y", .ok ""⟩) .jsonTarget =
      .okJSON ⟨⟨204, "GET", "http://x/y", .ok ""⟩, ""⟩ false :=
  do_empty_body_no_error decStub false "" ⟨204, "GET", "http://x/y", .ok ""⟩
    (by decide) rfl rfl

/-- C10: with an `io.Writer` target and a success status, `Do` returns the
envelope with a nil error for every body outcome — in particular when
reading the body fails mid-copy, since the `io.Copy` error is discarded —
so the caller cannot tell a complete copy from a truncated one. -/
theorem do_writer_discards_copy (dec : String → DecodeRes) (ctxDone : Bool)
    (ctxErrMsg : String) (resp : HTTPResp)
    (hstatus : ¬ (400 ≤ resp.statusCode ∧ resp.statusCode ≤ 599)) :
    Do dec ctxDone ctxErrMsg (.ok resp) .writer = .okWriter ⟨resp, ""⟩ := by
  have hE : hasError ⟨resp, ""⟩ = false := by
    rw [Bool.eq_false_iff]
    intro hcontra
    simp only [hasError, Bool.and_eq_true, decide_eq_true_eq] at hcontra
    exact hstatus hcontra
  simp [Do, hE]

/-- Witness for C10: a 200 whose body read fails, still reported as
success. -/
theorem do_writer_discards_copy_witness :
    Do decStub false "" (.ok ⟨200, "GET", "http://x/y", .err "read failed"⟩) .writer =
      .okWriter ⟨⟨200, "GET", "http://x/y", .err "read failed"⟩, ""⟩ :=
  do_writer_discards_copy decStub false "" ⟨200, "GET", "http://x/y", .err "read failed"⟩
    (by decide)

/-- C6: for every path string without a leading '/', `NewRequest` and
`NewMultiPartRequest` fail with a validation error whose value does not
depend on the URL-resolution oracle (so no resolution against the base URL
is performed): `NewRequest` returns the preceding-slash error for all
oracles and arguments, and `NewMultiPartRequest` returns the nil-body
validation error when the body is nil and the preceding-slash error
otherwise. -/
theorem request_path_validation (urlStr : String)
    (hslash : hasLeadingSlash urlStr = false) :
    (∀ resolve mergeQuery encode mkReq (c : Client) (method : String) params body,
      NewRequest resolve mergeQuery encode mkReq c method urlStr params body =
        .err ("httpx new request error: url must have a preceding slash, but \"" ++
          urlStr ++ "\" does not")) ∧
    (∀ resolve mkReq (c : Client) (method : String) body contentType,
      NewMultiPartRequest resolve mkReq c method urlStr body contentType =
        match body with
        | none => .err "httpx new multi part request error: expected not nil body"
        | some _ =>
          .err ("httpx new multi part request error: url must have a preceding slash, but \"" ++
            urlStr ++ "\" does not")) := by
  constructor
  · intro resolve mergeQuery encode mkReq c method params body
    simp [NewRequest, hslash]
  · intro resolve mkReq c method body contentType
    cases body <;> simp [NewMultiPartRequest, hslash]

/-- Witness for C6 on the path "x" with concrete oracles. -/
theorem request_path_validation_witness :
    NewRequest (fun _ => .err "r") (fun u _ => u) (fun b => .ok b)
      (fun m u b => .ok ⟨m, u, [], b⟩) ⟨"http://base", "ua"⟩ "GET" "x" none none =
      .err ("httpx new request error: url must have a preceding slash, but \"" ++
        "x" ++ "\" does not") ∧
    NewMultiPartRequest (fun _ => .err "r") (fun m u b => .ok ⟨m, u, [], b⟩)
      ⟨"http://base", "ua"⟩ "GET" "x" none "text/plain" =
      .err "httpx new multi part request error: expected not nil body" :=
  ⟨(request_path_validation "x" (by decide)).1 (fun _ => .err "r") (fun u _ => u)
      (fun b => .ok b) (fun m u b => .ok ⟨m, u, [], b⟩) ⟨"http://base", "ua"⟩ "GET" none none,
   (request_path_validation "x" (by decide)).2 (fun _ => .err "r")
      (fun m u b => .ok ⟨m, u, [], b⟩) ⟨"http://base", "ua"⟩ "GET" none "text/plain"⟩

/-- Witness for C3 at a concrete heap, request and token. -/
theorem roundtrip_copy_isolation_witness :
    RoundTrip (some (.ok ⟨"tok", 0⟩)) ⟨[(0, [("X-A", ["1"])])], 1⟩ ⟨"GET", "/u", 0⟩ =
      .delegated
        (setAuthorization ⟨"tok", 0⟩
          (cloneRequest ⟨[(0, [("X-A", ["1"])])], 1⟩ ⟨"GET", "/u", 0⟩).1
          (cloneRequest ⟨[(0, [("X-A", ["1"])])], 1⟩ ⟨"GET", "/u", 0⟩).2)
        (cloneRequest ⟨[(0, [("X-A", ["1"])])], 1⟩ ⟨"GET", "/u", 0⟩).2 ∧
    (setAuthorization ⟨"tok", 0⟩
        (cloneRequest ⟨[(0, [("X-A", ["1"])])], 1⟩ ⟨"GET", "/u", 0⟩).1
        (cloneRequest ⟨[(0, [("X-A", ["1"])])], 1⟩ ⟨"GET", "/u", 0⟩).2).get 0 =
      Heap.get ⟨[(0, [("X-A", ["1"])])], 1⟩ 0 :=
  ⟨(roundtrip_copy_isolation ⟨[(0, [("X-A", ["1"])])], 1⟩ ⟨"GET", "/u", 0⟩ ⟨"tok", 0⟩
      (by decide)).1,
   (roundtrip_copy_isolation ⟨[(0, [("X-A", ["1"])])], 1⟩ ⟨"GET", "/u", 0⟩ ⟨"tok", 0⟩
      (by decide)).2.2.2.2.1 0 (by decide)⟩

end Httpx
